import Mathlib

/-!
Shallow embedding of the reward-issuance core of the SHIB Ads WebApp backend
(src/api/index.js).  JavaScript numbers are modelled as `Option ℚ`: `none` is
NaN, `some q` a finite value (exact-rational idealization of IEEE doubles).
Timestamps are integers in milliseconds.  The Supabase record store is modelled
as in-memory lists of rows; store calls are modelled as always succeeding.
-/

namespace ShibAds

/-- A JavaScript number: `none` models NaN, `some q` a finite numeric value. -/
abbrev JsNum := Option ℚ

/-- JavaScript addition: NaN propagates. -/
def jsAdd : JsNum → JsNum → JsNum
  | some a, some b => some (a + b)
  | _, _ => none

/-- JavaScript subtraction: NaN propagates. -/
def jsSub : JsNum → JsNum → JsNum
  | some a, some b => some (a - b)
  | _, _ => none

/-- JavaScript multiplication: NaN propagates. -/
def jsMul : JsNum → JsNum → JsNum
  | some a, some b => some (a * b)
  | _, _ => none

/-- JavaScript strict less-than: any comparison with NaN is false. -/
def jsLt : JsNum → JsNum → Bool
  | some a, some b => decide (a < b)
  | _, _ => false

/-- JavaScript less-or-equal: any comparison with NaN is false. -/
def jsLe : JsNum → JsNum → Bool
  | some a, some b => decide (a ≤ b)
  | _, _ => false

-- Server-side constants (src/api/index.js lines 19-31).

def REWARD_PER_AD : ℚ := 3
def REFERRAL_COMMISSION_RATE : ℚ := 5 / 100
def DAILY_MAX_ADS : ℤ := 100
def DAILY_MAX_SPINS : ℤ := 15
def RESET_INTERVAL_MS : ℤ := 6 * 60 * 60 * 1000
def MIN_TIME_BETWEEN_ACTIONS_MS : ℤ := 3000
def ACTION_ID_EXPIRY_MS : ℤ := 60000
def SPIN_SECTORS : List ℚ := [5, 10, 15, 20, 5]
def TASK_REWARD : ℚ := 50

/-- The action kinds accepted by handleGenerateActionId (validActionTypes). -/
inductive ActionKind where
  | watchAd
  | preSpin
  | spinResult
  | withdraw
  | completeTask
  | completeNewTask
deriving DecidableEq

/-- A row of the `users` collection. -/
structure User where
  id : ℤ
  balance : JsNum
  is_banned : Bool
  ads_watched_today : ℤ
  spins_today : ℤ
  ads_limit_reached_at : Option ℤ
  spins_limit_reached_at : Option ℤ
  ref_by : Option ℤ
  last_activity : Option ℤ
  task_completed : Bool
deriving DecidableEq

/-- A row of the `temp_actions` collection (single-use action tokens). -/
structure TokenRow where
  rid : ℤ
  user_id : ℤ
  action_id : String
  action_type : ActionKind
  created_at : ℤ
deriving DecidableEq

/-- A row of the `tasks_new` collection; `task_reward` is the parseFloat image. -/
structure TaskRow where
  tid : ℤ
  task_reward : JsNum
  max_users : ℤ
  current_users : ℤ
  is_active : Bool
deriving DecidableEq

/-- A row of the `user_tasks_new` completion-join collection. -/
structure UserTaskRow where
  user_id : ℤ
  task_id : ℤ
deriving DecidableEq

/-- A row of the `withdrawal_history` collection. -/
structure WithdrawalRow where
  user_id : ℤ
  binance_id : String
  amount : JsNum
  status : String
deriving DecidableEq

/-- A row of the `commission_history` audit collection. -/
structure CommissionRow where
  referrer_id : ℤ
  referee_id : ℤ
  amount : JsNum
  source_reward : JsNum
deriving DecidableEq

/-- The record store: the collections touched by the reward core. -/
structure DB where
  users : List User
  temp_actions : List TokenRow
  tasks_new : List TaskRow
  user_tasks_new : List UserTaskRow
  withdrawal_history : List WithdrawalRow
  commission_history : List CommissionRow
deriving DecidableEq

/-- First `users` row with the given id (`?id=eq.{userId}` then `[0]`). -/
def usersFind (l : List User) (uid : ℤ) : Option User :=
  l.find? (fun u => decide (u.id = uid))

/-- Fetch a user row from the store. -/
def findUser (db : DB) (uid : ℤ) : Option User :=
  usersFind db.users uid

/-- PATCH on `users` with `?id=eq.{userId}`: apply the payload to matching rows. -/
def usersUpdate (l : List User) (uid : ℤ) (f : User → User) : List User :=
  l.map (fun u => if u.id = uid then f u else u)

/-- PATCH wrapper at the store level. -/
def updateUser (db : DB) (uid : ℤ) (f : User → User) : DB :=
  { db with users := usersUpdate db.users uid f }

/-- First `tasks_new` row with the given id. -/
def tasksFind (l : List TaskRow) (tid : ℤ) : Option TaskRow :=
  l.find? (fun t => decide (t.tid = tid))

/-- Fetch a task row from the store. -/
def findTask (db : DB) (tid : ℤ) : Option TaskRow :=
  tasksFind db.tasks_new tid

/-- PATCH on `tasks_new` with `?id=eq.{taskId}`. -/
def tasksUpdate (l : List TaskRow) (tid : ℤ) (f : TaskRow → TaskRow) : List TaskRow :=
  l.map (fun t => if t.tid = tid then f t else t)

/-- PATCH wrapper at the store level. -/
def updateTask (db : DB) (tid : ℤ) (f : TaskRow → TaskRow) : DB :=
  { db with tasks_new := tasksUpdate db.tasks_new tid f }

/-- The reward-relevant collections: everything except the token table. -/
def rewardTables (db : DB) :
    List User × List TaskRow × List UserTaskRow × List WithdrawalRow × List CommissionRow :=
  (db.users, db.tasks_new, db.user_tasks_new, db.withdrawal_history, db.commission_history)

/-- Outcome of validateAndUseActionId, one constructor per sendError site. -/
inductive ConsumeResult where
  | ok
  | missing
  | invalid
  | expired
deriving DecidableEq

/-- Whether a temp_actions row matches the three-field lookup
`user_id=eq.&action_id=eq.&action_type=eq.`. -/
def tokenMatches (uid : ℤ) (aid : String) (k : ActionKind) (r : TokenRow) : Bool :=
  decide (r.user_id = uid ∧ r.action_id = aid ∧ r.action_type = k)

/-- DELETE on temp_actions with `?id=eq.{record.id}`. -/
def tokensDelete (l : List TokenRow) (rid : ℤ) : List TokenRow :=
  l.filter (fun r => decide (r.rid ≠ rid))

/-- Core of validateAndUseActionId on the token table: a missing (falsy) action
id is rejected; otherwise look up the row matching user, value and kind; if
none matches fail `invalid`; if the age exceeds ACTION_ID_EXPIRY_MS delete the
row and fail `expired`; otherwise delete the row (the consumption) and
succeed. -/
def consumeToken (tokens : List TokenRow) (now uid : ℤ) (actionId : Option String)
    (k : ActionKind) : ConsumeResult × List TokenRow :=
  match actionId with
  | none => (ConsumeResult.missing, tokens)
  | some aid =>
    if aid = "" then (ConsumeResult.missing, tokens)
    else
      match tokens.find? (tokenMatches uid aid k) with
      | none => (ConsumeResult.invalid, tokens)
      | some record =>
        if now - record.created_at > ACTION_ID_EXPIRY_MS then
          (ConsumeResult.expired, tokensDelete tokens record.rid)
        else
          (ConsumeResult.ok, tokensDelete tokens record.rid)

/-- validateAndUseActionId at the store level: only temp_actions is touched. -/
def validateAndUseActionId (db : DB) (now uid : ℤ) (actionId : Option String)
    (k : ActionKind) : ConsumeResult × DB :=
  let r := consumeToken db.temp_actions now uid actionId k
  (r.1, { db with temp_actions := r.2 })

/-- Outcome of checkRateLimit. `limited` carries the remaining wait in
milliseconds and the displayed whole-second rounding from the error message. -/
inductive RateResult where
  | pass
  | limited (remainingMs : ℤ) (displaySeconds : ℤ)
deriving DecidableEq

/-- Core of checkRateLimit: a missing last_activity is treated as 0 (epoch);
if the elapsed time is below MIN_TIME_BETWEEN_ACTIONS_MS fail with the
remaining time and its ceiling in seconds; otherwise pass.  No write happens
here: stamping last_activity is left to the reward-granting update. -/
def rateCore (lastActivity : Option ℤ) (now : ℤ) : RateResult :=
  let timeElapsed : ℤ := now - lastActivity.getD 0
  if timeElapsed < MIN_TIME_BETWEEN_ACTIONS_MS then
    RateResult.limited (MIN_TIME_BETWEEN_ACTIONS_MS - timeElapsed)
      (Int.ceil (((MIN_TIME_BETWEEN_ACTIONS_MS - timeElapsed : ℤ) : ℚ) / 1000))
  else RateResult.pass

/-- checkRateLimit at the store level: an unknown user passes. -/
def checkRateLimit (db : DB) (now uid : ℤ) : RateResult :=
  match findUser db uid with
  | none => RateResult.pass
  | some user => rateCore user.last_activity now

/-- Whether the ads counter must be reset: limit-reached stamp set AND counter
at or above DAILY_MAX_ADS AND more than RESET_INTERVAL_MS elapsed. -/
def adsNeedsReset (user : User) (now : ℤ) : Bool :=
  match user.ads_limit_reached_at with
  | none => false
  | some t => decide (user.ads_watched_today ≥ DAILY_MAX_ADS) && decide (now - t > RESET_INTERVAL_MS)

/-- Whether the spins counter must be reset, analogously. -/
def spinsNeedsReset (user : User) (now : ℤ) : Bool :=
  match user.spins_limit_reached_at with
  | none => false
  | some t => decide (user.spins_today ≥ DAILY_MAX_SPINS) && decide (now - t > RESET_INTERVAL_MS)

/-- The update payload of resetDailyLimitsIfExpired: reset the ads fields when
`ra`, the spins fields when `rs`. -/
def applyResets (ra rs : Bool) (u : User) : User :=
  let u1 := if ra then { u with ads_watched_today := 0, ads_limit_reached_at := none } else u
  if rs then { u1 with spins_today := 0, spins_limit_reached_at := none } else u1

/-- resetDailyLimitsIfExpired: independently reset each counter whose cooldown
has elapsed; issue a PATCH only when the update payload is non-empty.  The
returned Bool records whether a store write was issued. -/
def resetDailyLimitsIfExpired (db : DB) (now uid : ℤ) : Bool × DB :=
  match findUser db uid with
  | none => (false, db)
  | some user =>
    if adsNeedsReset user now || spinsNeedsReset user now then
      (true, updateUser db uid (applyResets (adsNeedsReset user now) (spinsNeedsReset user now)))
    else (false, db)

/-- Outcome of processCommission as reported to its (fire-and-forget) caller. -/
inductive CommissionResult where
  | aborted
  | credited (newReferrerBalance : JsNum)
deriving DecidableEq

/-- The computed commission amount: source reward times the fixed 5% rate. -/
def commissionAmountOf (sourceReward : JsNum) : JsNum :=
  jsMul sourceReward (some REFERRAL_COMMISSION_RATE)

/-- processCommission: commission = source × rate; abort silently when the
amount is below the negligible floor 0.000001 or the referrer is unknown or
banned; otherwise credit the referrer and append one audit record. -/
def processCommission (db : DB) (referrerId refereeId : ℤ) (sourceReward : JsNum) :
    CommissionResult × DB :=
  if jsLt (commissionAmountOf sourceReward) (some (1 / 1000000)) then
    (CommissionResult.aborted, db)
  else
    match findUser db referrerId with
    | none => (CommissionResult.aborted, db)
    | some ref =>
      if ref.is_banned then (CommissionResult.aborted, db)
      else
        let newBalance := jsAdd ref.balance (commissionAmountOf sourceReward)
        let db1 := updateUser db referrerId (fun u => { u with balance := newBalance })
        let db2 := { db1 with commission_history :=
          db1.commission_history ++
            [⟨referrerId, refereeId, commissionAmountOf sourceReward, sourceReward⟩] }
        (CommissionResult.credited newBalance, db2)

/-- Error responses, one constructor per sendError call site reachable from the
reward-granting handlers. -/
inductive ApiError where
  | missingToken
  | tokenInvalid
  | tokenExpired
  | userNotFound
  | banned
  | rateLimited (remainingMs : ℤ) (displaySeconds : ℤ)
  | adLimitReached
  | spinLimitReached
  | notChannelMember
  | taskNotFound
  | taskAlreadyCompleted
  | taskInactive
  | taskCapacityReached
  | amountNotPositive
  | belowMinimum
  | insufficientBalance
deriving DecidableEq

/-- HTTP status code attached to each sendError call in the source. -/
def ApiError.httpStatus : ApiError → ℕ
  | .missingToken => 400
  | .tokenInvalid => 409
  | .tokenExpired => 408
  | .userNotFound => 404
  | .banned => 403
  | .rateLimited _ _ => 429
  | .adLimitReached => 403
  | .spinLimitReached => 403
  | .notChannelMember => 400
  | .taskNotFound => 404
  | .taskAlreadyCompleted => 403
  | .taskInactive => 403
  | .taskCapacityReached => 403
  | .amountNotPositive => 400
  | .belowMinimum => 400
  | .insufficientBalance => 400

/-- Response envelope: ok (HTTP 200) or an error. -/
inductive Resp where
  | ok
  | err (e : ApiError)
deriving DecidableEq

/-- Whether a response is the success envelope. -/
def Resp.isOk : Resp → Bool
  | .ok => true
  | .err _ => false

/-- The watchAd update payload: new balance, incremented ads counter, fresh
last_activity, and the cap stamp exactly when the new count reaches the cap. -/
def watchAdPayload (user : User) (now : ℤ) : User → User := fun u =>
  let u1 := { u with balance := jsAdd user.balance (some REWARD_PER_AD),
                     ads_watched_today := user.ads_watched_today + 1,
                     last_activity := some now }
  if user.ads_watched_today + 1 ≥ DAILY_MAX_ADS then { u1 with ads_limit_reached_at := some now }
  else u1

/-- The spinResult update payload, analogous to the watchAd one. -/
def spinResultPayload (user : User) (now : ℤ) (prize : ℚ) : User → User := fun u =>
  let u1 := { u with balance := jsAdd user.balance (some prize),
                     spins_today := user.spins_today + 1,
                     last_activity := some now }
  if user.spins_today + 1 ≥ DAILY_MAX_SPINS then { u1 with spins_limit_reached_at := some now }
  else u1

/-- The completeTask update payload: reward credited and the flag set. -/
def completeTaskPayload (user : User) (now : ℤ) : User → User := fun u =>
  { u with balance := jsAdd user.balance (some TASK_REWARD), task_completed := true,
           last_activity := some now }

/-- The completeNewTask user update payload. -/
def completeNewTaskPayload (user : User) (now : ℤ) (reward : JsNum) : User → User := fun u =>
  { u with balance := jsAdd user.balance reward, last_activity := some now }

/-- The withdraw update payload: balance debited by the requested amount. -/
def withdrawPayload (user : User) (now : ℤ) (amount : JsNum) : User → User := fun u =>
  { u with balance := jsSub user.balance amount, last_activity := some now }

/-- handleWatchAd: consume the watchAd token, then fetch the user, check ban,
rate and the daily ad cap; on success credit REWARD_PER_AD, increment
ads_watched_today, stamp last_activity, stamp ads_limit_reached_at when the
new count reaches the cap, and fire the referral commission. -/
def handleWatchAd (db : DB) (now uid : ℤ) (actionId : Option String) : Resp × DB :=
  let v := validateAndUseActionId db now uid actionId ActionKind.watchAd
  match v.1 with
  | ConsumeResult.missing => (Resp.err ApiError.missingToken, v.2)
  | ConsumeResult.invalid => (Resp.err ApiError.tokenInvalid, v.2)
  | ConsumeResult.expired => (Resp.err ApiError.tokenExpired, v.2)
  | ConsumeResult.ok =>
    let db1 := v.2
    match findUser db1 uid with
    | none => (Resp.err ApiError.userNotFound, db1)
    | some user =>
      if user.is_banned then (Resp.err ApiError.banned, db1)
      else
        match checkRateLimit db1 now uid with
        | RateResult.limited rem disp => (Resp.err (ApiError.rateLimited rem disp), db1)
        | RateResult.pass =>
          if user.ads_watched_today ≥ DAILY_MAX_ADS then (Resp.err ApiError.adLimitReached, db1)
          else
            let db2 := updateUser db1 uid (watchAdPayload user now)
            let db3 := match user.ref_by with
              | some rid => (processCommission db2 rid uid (some REWARD_PER_AD)).2
              | none => db2
            (Resp.ok, db3)

/-- handlePreSpin: consume the preSpin token, then only validate existence,
ban and the daily spin cap; no mutation happens. -/
def handlePreSpin (db : DB) (now uid : ℤ) (actionId : Option String) : Resp × DB :=
  let v := validateAndUseActionId db now uid actionId ActionKind.preSpin
  match v.1 with
  | ConsumeResult.missing => (Resp.err ApiError.missingToken, v.2)
  | ConsumeResult.invalid => (Resp.err ApiError.tokenInvalid, v.2)
  | ConsumeResult.expired => (Resp.err ApiError.tokenExpired, v.2)
  | ConsumeResult.ok =>
    let db1 := v.2
    match findUser db1 uid with
    | none => (Resp.err ApiError.userNotFound, db1)
    | some user =>
      if user.is_banned then (Resp.err ApiError.banned, db1)
      else if user.spins_today ≥ DAILY_MAX_SPINS then (Resp.err ApiError.spinLimitReached, db1)
      else (Resp.ok, db1)

/-- handleSpinResult: consume the spinResult token, re-validate ban, rate and
the spin cap, pick the prize at the given random index into SPIN_SECTORS,
credit it, increment spins_today, stamp the limit timestamp on cap-crossing,
and fire the referral commission.  The uniform random index is a parameter. -/
def handleSpinResult (db : DB) (now uid : ℤ) (actionId : Option String) (randomIndex : Fin 5) :
    Resp × DB :=
  let v := validateAndUseActionId db now uid actionId ActionKind.spinResult
  match v.1 with
  | ConsumeResult.missing => (Resp.err ApiError.missingToken, v.2)
  | ConsumeResult.invalid => (Resp.err ApiError.tokenInvalid, v.2)
  | ConsumeResult.expired => (Resp.err ApiError.tokenExpired, v.2)
  | ConsumeResult.ok =>
    let db1 := v.2
    match findUser db1 uid with
    | none => (Resp.err ApiError.userNotFound, db1)
    | some user =>
      if user.is_banned then (Resp.err ApiError.banned, db1)
      else
        match checkRateLimit db1 now uid with
        | RateResult.limited rem disp => (Resp.err (ApiError.rateLimited rem disp), db1)
        | RateResult.pass =>
          if user.spins_today ≥ DAILY_MAX_SPINS then (Resp.err ApiError.spinLimitReached, db1)
          else
            let prize := SPIN_SECTORS.getD randomIndex.val 0
            let db2 := updateUser db1 uid (spinResultPayload user now prize)
            let db3 := match user.ref_by with
              | some rid => (processCommission db2 rid uid (some prize)).2
              | none => db2
            (Resp.ok, db3)

/-- handleCompleteTask (the original channel-join task): consume the token,
check ban, the task_completed flag, rate and channel membership (the external
membership result is a parameter); on success credit TASK_REWARD, mark the
task completed, stamp last_activity and fire the commission. -/
def handleCompleteTask (db : DB) (now uid : ℤ) (actionId : Option String) (isMember : Bool) :
    Resp × DB :=
  let v := validateAndUseActionId db now uid actionId ActionKind.completeTask
  match v.1 with
  | ConsumeResult.missing => (Resp.err ApiError.missingToken, v.2)
  | ConsumeResult.invalid => (Resp.err ApiError.tokenInvalid, v.2)
  | ConsumeResult.expired => (Resp.err ApiError.tokenExpired, v.2)
  | ConsumeResult.ok =>
    let db1 := v.2
    match findUser db1 uid with
    | none => (Resp.err ApiError.userNotFound, db1)
    | some user =>
      if user.is_banned then (Resp.err ApiError.banned, db1)
      else if user.task_completed then (Resp.err ApiError.taskAlreadyCompleted, db1)
      else
        match checkRateLimit db1 now uid with
        | RateResult.limited rem disp => (Resp.err (ApiError.rateLimited rem disp), db1)
        | RateResult.pass =>
          if !isMember then (Resp.err ApiError.notChannelMember, db1)
          else
            let db2 := updateUser db1 uid (completeTaskPayload user now)
            let db3 := match user.ref_by with
              | some rid => (processCommission db2 rid uid (some TASK_REWARD)).2
              | none => db2
            (Resp.ok, db3)

/-- handleCompleteNewTask: consume the token, check ban, prior completion,
task existence, the active flag, capacity and rate; on success increment the
task participant counter, insert the completion row, credit the task reward,
stamp last_activity and fire the commission.  Note no write flags the task
inactive. -/
def handleCompleteNewTask (db : DB) (now uid taskId : ℤ) (actionId : Option String) :
    Resp × DB :=
  let v := validateAndUseActionId db now uid actionId ActionKind.completeNewTask
  match v.1 with
  | ConsumeResult.missing => (Resp.err ApiError.missingToken, v.2)
  | ConsumeResult.invalid => (Resp.err ApiError.tokenInvalid, v.2)
  | ConsumeResult.expired => (Resp.err ApiError.tokenExpired, v.2)
  | ConsumeResult.ok =>
    let db1 := v.2
    match findUser db1 uid with
    | none => (Resp.err ApiError.userNotFound, db1)
    | some user =>
      if user.is_banned then (Resp.err ApiError.banned, db1)
      else
        match db1.user_tasks_new.find? (fun r => decide (r.user_id = uid ∧ r.task_id = taskId)) with
        | some _ => (Resp.err ApiError.taskAlreadyCompleted, db1)
        | none =>
          match findTask db1 taskId with
          | none => (Resp.err ApiError.taskNotFound, db1)
          | some task =>
            if !task.is_active then (Resp.err ApiError.taskInactive, db1)
            else if task.current_users ≥ task.max_users then
              (Resp.err ApiError.taskCapacityReached, db1)
            else
              match checkRateLimit db1 now uid with
              | RateResult.limited rem disp => (Resp.err (ApiError.rateLimited rem disp), db1)
              | RateResult.pass =>
                let db2 := updateTask db1 taskId
                  (fun t => { t with current_users := task.current_users + 1 })
                let db3 := { db2 with user_tasks_new := db2.user_tasks_new ++ [⟨uid, taskId⟩] }
                let db4 := updateUser db3 uid (completeNewTaskPayload user now task.task_reward)
                let db5 := match user.ref_by with
                  | some rid => (processCommission db4 rid uid task.task_reward).2
                  | none => db4
                (Resp.ok, db5)

/-- handleWithdraw: consume the token, check ban and rate, then validate the
parsed amount (positive, at least the 1000 minimum) and balance sufficiency;
on success debit the balance, stamp last_activity and append one pending
withdrawal record.  The parsed amount is a JS number, so NaN comparisons are
all false. -/
def handleWithdraw (db : DB) (now uid : ℤ) (binanceId : String) (amount : JsNum)
    (actionId : Option String) : Resp × DB :=
  let v := validateAndUseActionId db now uid actionId ActionKind.withdraw
  match v.1 with
  | ConsumeResult.missing => (Resp.err ApiError.missingToken, v.2)
  | ConsumeResult.invalid => (Resp.err ApiError.tokenInvalid, v.2)
  | ConsumeResult.expired => (Resp.err ApiError.tokenExpired, v.2)
  | ConsumeResult.ok =>
    let db1 := v.2
    match findUser db1 uid with
    | none => (Resp.err ApiError.userNotFound, db1)
    | some user =>
      if user.is_banned then (Resp.err ApiError.banned, db1)
      else
        match checkRateLimit db1 now uid with
        | RateResult.limited rem disp => (Resp.err (ApiError.rateLimited rem disp), db1)
        | RateResult.pass =>
          if jsLe amount (some 0) then (Resp.err ApiError.amountNotPositive, db1)
          else if jsLt amount (some 1000) then (Resp.err ApiError.belowMinimum, db1)
          else if jsLt user.balance amount then (Resp.err ApiError.insufficientBalance, db1)
          else
            let db2 := updateUser db1 uid (withdrawPayload user now amount)
            let db3 := { db2 with withdrawal_history :=
              db2.withdrawal_history ++ [⟨uid, binanceId, amount, "pending"⟩] }
            (Resp.ok, db3)

/-- Generic row lookup after a keyed update: the updated list agrees with the
original lookup, with the payload applied when the keys coincide. -/
theorem find?_map_keyed {α : Type} (idf : α → ℤ) (l : List α) (rid uid : ℤ) (f : α → α)
    (hf : ∀ x, idf (f x) = idf x) :
    (l.map (fun x => if idf x = rid then f x else x)).find? (fun x => decide (idf x = uid)) =
      if rid = uid then (l.find? (fun x => decide (idf x = uid))).map f
      else l.find? (fun x => decide (idf x = uid)) := by
  induction l with
  | nil => by_cases h : rid = uid <;> simp [h]
  | cons x xs ih =>
    by_cases hxr : idf x = rid <;> by_cases hxu : idf x = uid
    · have hru : rid = uid := hxr.symm.trans hxu
      simp [List.find?_cons, hxr, hxu, hru, hf]
    · have hru : ¬ rid = uid := fun h => hxu (hxr.trans h)
      simp [List.find?_cons, hxr, hxu, hru, hf, ih]
    · have hru : ¬ rid = uid := fun h => hxr (hxu.trans h.symm)
      have hur : ¬ uid = rid := fun h => hru h.symm
      simp [List.find?_cons, hxr, hxu, hru, hur]
    · simp [List.find?_cons, hxr, hxu, ih]

/-- Specialisation of the keyed-update lookup to the users collection. -/
theorem usersFind_update (l : List User) (rid uid : ℤ) (f : User → User)
    (hf : ∀ x, (f x).id = x.id) :
    usersFind (usersUpdate l rid f) uid =
      if rid = uid then (usersFind l uid).map f else usersFind l uid :=
  find?_map_keyed User.id l rid uid f hf

/-- Specialisation of the keyed-update lookup to the tasks collection. -/
theorem tasksFind_update (l : List TaskRow) (rid tid : ℤ) (f : TaskRow → TaskRow)
    (hf : ∀ x, (f x).tid = x.tid) :
    tasksFind (tasksUpdate l rid f) tid =
      if rid = tid then (tasksFind l tid).map f else tasksFind l tid :=
  find?_map_keyed TaskRow.tid l rid tid f hf

/-- Token consumption changes nothing outside the token table. -/
theorem validate_rewardTables (db : DB) (now uid : ℤ) (aid : Option String) (k : ActionKind) :
    rewardTables (validateAndUseActionId db now uid aid k).2 = rewardTables db := rfl

/-- Token consumption leaves every user row in place. -/
theorem findUser_validate (db : DB) (now uid : ℤ) (aid : Option String) (k : ActionKind)
    (x : ℤ) : findUser (validateAndUseActionId db now uid aid k).2 x = findUser db x := rfl

/-- Token consumption does not affect the rate check. -/
theorem checkRateLimit_validate (db : DB) (now uid : ℤ) (aid : Option String) (k : ActionKind)
    (n x : ℤ) : checkRateLimit (validateAndUseActionId db now uid aid k).2 n x =
      checkRateLimit db n x := rfl

/-- Lookup after updateUser: the payload is applied exactly at the key. -/
theorem findUser_updateUser (db : DB) (rid x : ℤ) (f : User → User)
    (hf : ∀ u, (f u).id = u.id) :
    findUser (updateUser db rid f) x =
      if rid = x then (findUser db x).map f else findUser db x :=
  find?_map_keyed User.id db.users rid x f hf

/-- Lookup after updateTask: the payload is applied exactly at the key. -/
theorem findTask_updateTask (db : DB) (rid x : ℤ) (f : TaskRow → TaskRow)
    (hf : ∀ t, (f t).tid = t.tid) :
    findTask (updateTask db rid f) x =
      if rid = x then (findTask db x).map f else findTask db x :=
  find?_map_keyed TaskRow.tid db.tasks_new rid x f hf

/-- processCommission touches only the users and commission_history tables. -/
theorem processCommission_keeps (db : DB) (rid uid : ℤ) (s : JsNum) :
    (processCommission db rid uid s).2.temp_actions = db.temp_actions ∧
    (processCommission db rid uid s).2.tasks_new = db.tasks_new ∧
    (processCommission db rid uid s).2.user_tasks_new = db.user_tasks_new ∧
    (processCommission db rid uid s).2.withdrawal_history = db.withdrawal_history := by
  unfold processCommission
  split
  · exact ⟨rfl, rfl, rfl, rfl⟩
  · split
    · exact ⟨rfl, rfl, rfl, rfl⟩
    · split
      · exact ⟨rfl, rfl, rfl, rfl⟩
      · exact ⟨rfl, rfl, rfl, rfl⟩

/-- processCommission leaves every user row other than the referrer in place. -/
theorem findUser_processCommission (db : DB) (rid uid : ℤ) (s : JsNum) (x : ℤ)
    (hx : rid ≠ x) : findUser (processCommission db rid uid s).2 x = findUser db x := by
  unfold processCommission
  split
  · rfl
  · split
    · rfl
    · rename_i ref heq
      split
      · rfl
      · exact (findUser_updateUser db rid x
          (fun u => { u with balance := jsAdd ref.balance (commissionAmountOf s) })
          (fun u => rfl)).trans (if_neg hx)

/-- The watchAd payload does not change the row id. -/
theorem watchAdPayload_id (user : User) (now : ℤ) (u : User) :
    (watchAdPayload user now u).id = u.id := by
  by_cases h : user.ads_watched_today + 1 ≥ DAILY_MAX_ADS <;> simp [watchAdPayload, h]

/-- The spinResult payload does not change the row id. -/
theorem spinResultPayload_id (user : User) (now : ℤ) (prize : ℚ) (u : User) :
    (spinResultPayload user now prize u).id = u.id := by
  by_cases h : user.spins_today + 1 ≥ DAILY_MAX_SPINS <;> simp [spinResultPayload, h]

/-- Success shape of handleWatchAd: under a consumed token, an existing
unbanned user, a passing rate check and a below-cap counter, the response is
ok and the user row afterwards has the incremented counter, the credited
balance, the fresh activity stamp, and the cap stamp exactly when the new
count reaches the cap. -/
theorem watchAd_success (db : DB) (now uid : ℤ) (aid : Option String) (user : User) (b : ℚ)
    (hc : (validateAndUseActionId db now uid aid ActionKind.watchAd).1 = ConsumeResult.ok)
    (hfind : findUser db uid = some user)
    (hban : user.is_banned = false)
    (hrate : checkRateLimit db now uid = RateResult.pass)
    (hcap : user.ads_watched_today < DAILY_MAX_ADS)
    (hbal : user.balance = some b)
    (href : ∀ r, user.ref_by = some r → r ≠ uid) :
    (handleWatchAd db now uid aid).1 = Resp.ok
    ∧ ∃ u', findUser (handleWatchAd db now uid aid).2 uid = some u'
        ∧ u'.ads_watched_today = user.ads_watched_today + 1
        ∧ u'.balance = some (b + REWARD_PER_AD)
        ∧ u'.last_activity = some now
        ∧ u'.ads_limit_reached_at = (if user.ads_watched_today + 1 ≥ DAILY_MAX_ADS then some now
            else user.ads_limit_reached_at)
        ∧ u'.spins_today = user.spins_today
        ∧ u'.spins_limit_reached_at = user.spins_limit_reached_at
        ∧ u'.is_banned = user.is_banned ∧ u'.ref_by = user.ref_by
        ∧ u'.task_completed = user.task_completed := by
  have hncap : ¬ user.ads_watched_today ≥ DAILY_MAX_ADS := not_le.mpr hcap
  have hW : handleWatchAd db now uid aid =
      (Resp.ok,
        match user.ref_by with
        | some rid => (processCommission
            (updateUser (validateAndUseActionId db now uid aid ActionKind.watchAd).2 uid
              (watchAdPayload user now)) rid uid (some REWARD_PER_AD)).2
        | none => updateUser (validateAndUseActionId db now uid aid ActionKind.watchAd).2 uid
            (watchAdPayload user now)) := by
    simp [handleWatchAd, hc, findUser_validate, hfind, checkRateLimit_validate, hrate, hban, hncap]
  have hfind1 : findUser (updateUser (validateAndUseActionId db now uid aid ActionKind.watchAd).2
      uid (watchAdPayload user now)) uid = some (watchAdPayload user now user) := by
    rw [findUser_updateUser _ _ _ _ (watchAdPayload_id user now), if_pos rfl,
      findUser_validate, hfind, Option.map_some']
  have hfields : (watchAdPayload user now user).ads_watched_today = user.ads_watched_today + 1
      ∧ (watchAdPayload user now user).balance = some (b + REWARD_PER_AD)
      ∧ (watchAdPayload user now user).last_activity = some now
      ∧ (watchAdPayload user now user).ads_limit_reached_at =
          (if user.ads_watched_today + 1 ≥ DAILY_MAX_ADS then some now
           else user.ads_limit_reached_at)
      ∧ (watchAdPayload user now user).spins_today = user.spins_today
      ∧ (watchAdPayload user now user).spins_limit_reached_at = user.spins_limit_reached_at
      ∧ (watchAdPayload user now user).is_banned = user.is_banned
      ∧ (watchAdPayload user now user).ref_by = user.ref_by
      ∧ (watchAdPayload user now user).task_completed = user.task_completed := by
    by_cases h : user.ads_watched_today + 1 ≥ DAILY_MAX_ADS <;>
      simp [watchAdPayload, h, jsAdd, hbal]
  have hfindFinal : findUser (handleWatchAd db now uid aid).2 uid =
      some (watchAdPayload user now user) := by
    rw [hW]
    cases hrb : user.ref_by with
    | none => exact hfind1
    | some rid =>
      rw [findUser_processCommission _ _ _ _ _ (href rid hrb)]
      exact hfind1
  exact ⟨by rw [hW], watchAdPayload user now user, hfindFinal, hfields⟩

/-- The reset payload keeps the row id and the fields outside the counters. -/
theorem applyResets_keeps (ra rs : Bool) (u : User) :
    (applyResets ra rs u).id = u.id ∧ (applyResets ra rs u).balance = u.balance ∧
    (applyResets ra rs u).is_banned = u.is_banned ∧
    (applyResets ra rs u).last_activity = u.last_activity ∧
    (applyResets ra rs u).ref_by = u.ref_by ∧
    (applyResets ra rs u).task_completed = u.task_completed := by
  cases ra <;> cases rs <;> exact ⟨rfl, rfl, rfl, rfl, rfl, rfl⟩

/-- When the ads guard fired, the reset payload zeroes the ads fields. -/
theorem applyResets_ads (rs : Bool) (u : User) :
    (applyResets true rs u).ads_watched_today = 0 ∧
    (applyResets true rs u).ads_limit_reached_at = none := by
  cases rs <;> exact ⟨rfl, rfl⟩

/-- The consume outcome depends only on the token table. -/
theorem validate_fst_congr (db1 db2 : DB) (h : db1.temp_actions = db2.temp_actions)
    (now uid : ℤ) (aid : Option String) (k : ActionKind) :
    (validateAndUseActionId db1 now uid aid k).1 = (validateAndUseActionId db2 now uid aid k).1 := by
  show (consumeToken db1.temp_actions now uid aid k).1 =
    (consumeToken db2.temp_actions now uid aid k).1
  rw [h]

/-- The rate check reduces to the fetched row's last_activity. -/
theorem checkRateLimit_of_find (db : DB) (now uid : ℤ) (user : User)
    (hfind : findUser db uid = some user) :
    checkRateLimit db now uid = rateCore user.last_activity now := by
  simp [checkRateLimit, hfind]

/-- A fresh user row used by the concrete witnesses. -/
def sampleUser : User :=
  ⟨1, some 0, false, 0, 0, none, none, none, none, false⟩

/-- C1 — Token single-use: once a token for (user, kind) has been successfully
consumed, a second consume presenting the same token value fails with the
TokenInvalid error (HTTP 409, the same result as for a never-issued token) and
performs no mutation at all, so in particular the watchAd handler then returns
the 409 error and leaves the store untouched, granting no reward. -/
theorem C1_token_single_use
    (db : DB) (now now2 uid : ℤ) (aid : String) (k : ActionKind) (db' : DB)
    (huniq : ∀ r1 ∈ db.temp_actions, ∀ r2 ∈ db.temp_actions,
      tokenMatches uid aid k r1 = true → tokenMatches uid aid k r2 = true → r1 = r2)
    (hok : validateAndUseActionId db now uid (some aid) k = (ConsumeResult.ok, db')) :
    validateAndUseActionId db' now2 uid (some aid) k = (ConsumeResult.invalid, db')
    ∧ ApiError.tokenInvalid.httpStatus = 409
    ∧ (k = ActionKind.watchAd →
        handleWatchAd db' now2 uid (some aid) = (Resp.err ApiError.tokenInvalid, db'))
    ∧ (∀ db2 : DB, db2.temp_actions.find? (tokenMatches uid aid k) = none →
        validateAndUseActionId db2 now2 uid (some aid) k = (ConsumeResult.invalid, db2)) := by
  have h1 : (consumeToken db.temp_actions now uid (some aid) k).1 = ConsumeResult.ok :=
    congrArg Prod.fst hok
  have h2 : (consumeToken db.temp_actions now uid (some aid) k).2 = db'.temp_actions :=
    congrArg (fun p => DB.temp_actions p.2) hok
  by_cases haid : aid = ""
  · exfalso; simp [consumeToken, haid] at h1
  · cases hfind : db.temp_actions.find? (tokenMatches uid aid k) with
    | none => exfalso; simp [consumeToken, haid, hfind] at h1
    | some r0 =>
      by_cases hexp : now - r0.created_at > ACTION_ID_EXPIRY_MS
      · exfalso; simp [consumeToken, haid, hfind, hexp] at h1
      · have h2' : tokensDelete db.temp_actions r0.rid = db'.temp_actions := by
          simpa [consumeToken, haid, hfind, hexp] using h2
        have hnone : db'.temp_actions.find? (tokenMatches uid aid k) = none := by
          rw [← h2', List.find?_eq_none]
          intro r hr hmatch
          obtain ⟨hrmem, hrneq⟩ := List.mem_filter.mp hr
          have hne : r.rid ≠ r0.rid := by simpa using hrneq
          have hr0mem : r0 ∈ db.temp_actions := List.mem_of_find?_eq_some hfind
          have hm0 : tokenMatches uid aid k r0 = true := List.find?_some hfind
          exact hne (congrArg TokenRow.rid (huniq r0 hr0mem r hrmem hm0 hmatch).symm)
        refine ⟨?_, rfl, ?_, ?_⟩
        · simp [validateAndUseActionId, consumeToken, haid, hnone]
        · intro hk; subst hk
          simp [handleWatchAd, validateAndUseActionId, consumeToken, haid, hnone]
        · intro db2 hfind2
          simp [validateAndUseActionId, consumeToken, haid, hfind2]

/-- Store contents for the C1 witness: one user, one live watchAd token. -/
def dbC1 : DB :=
  ⟨[sampleUser], [⟨10, 1, "tok", ActionKind.watchAd, 5000⟩], [], [], [], []⟩

/-- Store contents after the C1 witness token has been consumed. -/
def dbC1after : DB := ⟨[sampleUser], [], [], [], [], []⟩

/-- Witness for C1 at a concrete store: the token consumed at time 10000 is
refused with TokenInvalid when replayed at time 11000. -/
theorem C1_token_single_use_witness :
    validateAndUseActionId dbC1after 11000 1 (some "tok") ActionKind.watchAd =
      (ConsumeResult.invalid, dbC1after)
    ∧ ApiError.tokenInvalid.httpStatus = 409
    ∧ (ActionKind.watchAd = ActionKind.watchAd →
        handleWatchAd dbC1after 11000 1 (some "tok") = (Resp.err ApiError.tokenInvalid, dbC1after))
    ∧ (∀ db2 : DB, db2.temp_actions.find? (tokenMatches 1 "tok" ActionKind.watchAd) = none →
        validateAndUseActionId db2 11000 1 (some "tok") ActionKind.watchAd =
          (ConsumeResult.invalid, db2)) :=
  C1_token_single_use dbC1 10000 11000 1 "tok" ActionKind.watchAd dbC1after
    (by decide) rfl

/-- C3 — Token expiry: when consumption happens more than ACTION_ID_EXPIRY_MS
(60 seconds) after the matching row's creation timestamp, the row is deleted
and the call fails with TokenExpired (HTTP 408); the watchAd handler then
returns that error and no reward table is mutated. -/
theorem C3_token_expiry (db : DB) (now uid : ℤ) (aid : String) (k : ActionKind) (r : TokenRow)
    (haid : aid ≠ "")
    (hfind : db.temp_actions.find? (tokenMatches uid aid k) = some r)
    (hage : now - r.created_at > ACTION_ID_EXPIRY_MS) :
    validateAndUseActionId db now uid (some aid) k =
      (ConsumeResult.expired, { db with temp_actions := tokensDelete db.temp_actions r.rid })
    ∧ r ∉ tokensDelete db.temp_actions r.rid
    ∧ ApiError.tokenExpired.httpStatus = 408
    ∧ (k = ActionKind.watchAd →
        (handleWatchAd db now uid (some aid)).1 = Resp.err ApiError.tokenExpired ∧
        rewardTables (handleWatchAd db now uid (some aid)).2 = rewardTables db) := by
  have hv : validateAndUseActionId db now uid (some aid) k =
      (ConsumeResult.expired, { db with temp_actions := tokensDelete db.temp_actions r.rid }) := by
    simp [validateAndUseActionId, consumeToken, haid, hfind, hage]
  refine ⟨hv, ?_, rfl, ?_⟩
  · intro hr
    obtain ⟨-, hrneq⟩ := List.mem_filter.mp hr
    simp at hrneq
  · intro hk; subst hk
    constructor
    · show (handleWatchAd db now uid (some aid)).1 = Resp.err ApiError.tokenExpired
      simp [handleWatchAd, hv]
    · show rewardTables (handleWatchAd db now uid (some aid)).2 = rewardTables db
      simp [handleWatchAd, hv, rewardTables]

/-- Store contents for the C3 witness: one token created at time 0. -/
def dbC3 : DB :=
  ⟨[sampleUser], [⟨11, 1, "tok3", ActionKind.watchAd, 0⟩], [], [], [], []⟩

/-- Witness for C3 at a concrete store: a token aged 61 seconds is deleted and
refused with TokenExpired. -/
theorem C3_token_expiry_witness :
    validateAndUseActionId dbC3 61000 1 (some "tok3") ActionKind.watchAd =
      (ConsumeResult.expired, { dbC3 with temp_actions := tokensDelete dbC3.temp_actions 11 })
    ∧ (⟨11, 1, "tok3", ActionKind.watchAd, 0⟩ : TokenRow) ∉ tokensDelete dbC3.temp_actions 11
    ∧ ApiError.tokenExpired.httpStatus = 408
    ∧ (ActionKind.watchAd = ActionKind.watchAd →
        (handleWatchAd dbC3 61000 1 (some "tok3")).1 = Resp.err ApiError.tokenExpired ∧
        rewardTables (handleWatchAd dbC3 61000 1 (some "tok3")).2 = rewardTables dbC3) :=
  C3_token_expiry dbC3 61000 1 "tok3" ActionKind.watchAd ⟨11, 1, "tok3", ActionKind.watchAd, 0⟩
    (by decide) rfl (by decide)

/-- C2 — Token gates every mutation: for each reward-granting handler (ad
view, pre-spin, spin result, both task completions, withdrawal), whenever
token consumption does not succeed the handler answers with an error and every
reward table (users, tasks, completions, withdrawals, commission audit) is
left exactly as it was; contrapositively, any run that mutates a reward table
consumed its action token first. -/
theorem C2_token_gates_mutations
    (db : DB) (now uid taskId : ℤ) (aid : Option String) (binanceId : String)
    (amount : JsNum) (idx : Fin 5) (isMember : Bool) :
    ((validateAndUseActionId db now uid aid ActionKind.watchAd).1 ≠ ConsumeResult.ok →
      (handleWatchAd db now uid aid).1.isOk = false ∧
      rewardTables (handleWatchAd db now uid aid).2 = rewardTables db)
    ∧ ((validateAndUseActionId db now uid aid ActionKind.preSpin).1 ≠ ConsumeResult.ok →
      (handlePreSpin db now uid aid).1.isOk = false ∧
      rewardTables (handlePreSpin db now uid aid).2 = rewardTables db)
    ∧ ((validateAndUseActionId db now uid aid ActionKind.spinResult).1 ≠ ConsumeResult.ok →
      (handleSpinResult db now uid aid idx).1.isOk = false ∧
      rewardTables (handleSpinResult db now uid aid idx).2 = rewardTables db)
    ∧ ((validateAndUseActionId db now uid aid ActionKind.completeTask).1 ≠ ConsumeResult.ok →
      (handleCompleteTask db now uid aid isMember).1.isOk = false ∧
      rewardTables (handleCompleteTask db now uid aid isMember).2 = rewardTables db)
    ∧ ((validateAndUseActionId db now uid aid ActionKind.completeNewTask).1 ≠ ConsumeResult.ok →
      (handleCompleteNewTask db now uid taskId aid).1.isOk = false ∧
      rewardTables (handleCompleteNewTask db now uid taskId aid).2 = rewardTables db)
    ∧ ((validateAndUseActionId db now uid aid ActionKind.withdraw).1 ≠ ConsumeResult.ok →
      (handleWithdraw db now uid binanceId amount aid).1.isOk = false ∧
      rewardTables (handleWithdraw db now uid binanceId amount aid).2 = rewardTables db) := by
  refine ⟨?_, ?_, ?_, ?_, ?_, ?_⟩
  · intro h
    cases hv : (validateAndUseActionId db now uid aid ActionKind.watchAd).1 with
    | ok => exact absurd hv h
    | missing => simp [handleWatchAd, hv, Resp.isOk, validate_rewardTables]
    | invalid => simp [handleWatchAd, hv, Resp.isOk, validate_rewardTables]
    | expired => simp [handleWatchAd, hv, Resp.isOk, validate_rewardTables]
  · intro h
    cases hv : (validateAndUseActionId db now uid aid ActionKind.preSpin).1 with
    | ok => exact absurd hv h
    | missing => simp [handlePreSpin, hv, Resp.isOk, validate_rewardTables]
    | invalid => simp [handlePreSpin, hv, Resp.isOk, validate_rewardTables]
    | expired => simp [handlePreSpin, hv, Resp.isOk, validate_rewardTables]
  · intro h
    cases hv : (validateAndUseActionId db now uid aid ActionKind.spinResult).1 with
    | ok => exact absurd hv h
    | missing => simp [handleSpinResult, hv, Resp.isOk, validate_rewardTables]
    | invalid => simp [handleSpinResult, hv, Resp.isOk, validate_rewardTables]
    | expired => simp [handleSpinResult, hv, Resp.isOk, validate_rewardTables]
  · intro h
    cases hv : (validateAndUseActionId db now uid aid ActionKind.completeTask).1 with
    | ok => exact absurd hv h
    | missing => simp [handleCompleteTask, hv, Resp.isOk, validate_rewardTables]
    | invalid => simp [handleCompleteTask, hv, Resp.isOk, validate_rewardTables]
    | expired => simp [handleCompleteTask, hv, Resp.isOk, validate_rewardTables]
  · intro h
    cases hv : (validateAndUseActionId db now uid aid ActionKind.completeNewTask).1 with
    | ok => exact absurd hv h
    | missing => simp [handleCompleteNewTask, hv, Resp.isOk, validate_rewardTables]
    | invalid => simp [handleCompleteNewTask, hv, Resp.isOk, validate_rewardTables]
    | expired => simp [handleCompleteNewTask, hv, Resp.isOk, validate_rewardTables]
  · intro h
    cases hv : (validateAndUseActionId db now uid aid ActionKind.withdraw).1 with
    | ok => exact absurd hv h
    | missing => simp [handleWithdraw, hv, Resp.isOk, validate_rewardTables]
    | invalid => simp [handleWithdraw, hv, Resp.isOk, validate_rewardTables]
    | expired => simp [handleWithdraw, hv, Resp.isOk, validate_rewardTables]

/-- Witness for C2 at a concrete store holding no token at all: every handler
refuses the request and leaves every reward table unchanged. -/
theorem C2_token_gates_mutations_witness :
    ((handleWatchAd dbC1after 9999 1 (some "zzz")).1.isOk = false ∧
      rewardTables (handleWatchAd dbC1after 9999 1 (some "zzz")).2 = rewardTables dbC1after)
    ∧ ((handlePreSpin dbC1after 9999 1 (some "zzz")).1.isOk = false ∧
      rewardTables (handlePreSpin dbC1after 9999 1 (some "zzz")).2 = rewardTables dbC1after)
    ∧ ((handleSpinResult dbC1after 9999 1 (some "zzz") 0).1.isOk = false ∧
      rewardTables (handleSpinResult dbC1after 9999 1 (some "zzz") 0).2 = rewardTables dbC1after)
    ∧ ((handleCompleteTask dbC1after 9999 1 (some "zzz") true).1.isOk = false ∧
      rewardTables (handleCompleteTask dbC1after 9999 1 (some "zzz") true).2 =
        rewardTables dbC1after)
    ∧ ((handleCompleteNewTask dbC1after 9999 1 5 (some "zzz")).1.isOk = false ∧
      rewardTables (handleCompleteNewTask dbC1after 9999 1 5 (some "zzz")).2 =
        rewardTables dbC1after)
    ∧ ((handleWithdraw dbC1after 9999 1 "b" (some 2000) (some "zzz")).1.isOk = false ∧
      rewardTables (handleWithdraw dbC1after 9999 1 "b" (some 2000) (some "zzz")).2 =
        rewardTables dbC1after) := by
  have h := C2_token_gates_mutations dbC1after 9999 1 5 (some "zzz") "b" (some 2000) 0 true
  exact ⟨h.1 (by decide), h.2.1 (by decide), h.2.2.1 (by decide), h.2.2.2.1 (by decide),
    h.2.2.2.2.1 (by decide), h.2.2.2.2.2 (by decide)⟩

/-- The ads-reset guard holds exactly when the stamp is set, the counter is at
or above the cap and strictly more than the cooldown has elapsed. -/
theorem adsNeedsReset_iff (user : User) (now : ℤ) :
    adsNeedsReset user now = true ↔
      ∃ t, user.ads_limit_reached_at = some t ∧ user.ads_watched_today ≥ DAILY_MAX_ADS ∧
        now - t > RESET_INTERVAL_MS := by
  unfold adsNeedsReset
  cases h : user.ads_limit_reached_at <;> simp [h]

/-- The spins-reset guard, analogously. -/
theorem spinsNeedsReset_iff (user : User) (now : ℤ) :
    spinsNeedsReset user now = true ↔
      ∃ t, user.spins_limit_reached_at = some t ∧ user.spins_today ≥ DAILY_MAX_SPINS ∧
        now - t > RESET_INTERVAL_MS := by
  unfold spinsNeedsReset
  cases h : user.spins_limit_reached_at <;> simp [h]

/-- C5 — Daily-limit reset: each of the two counters is reset (to zero, with
its stamp cleared) exactly when its stamp is non-null, its counter is at or
above its cap, and more than the 6-hour cooldown has elapsed since the stamp;
in every other case the counter, the stamp and all other user fields are
unchanged; a store write is issued exactly when some counter needed reset, and
when none does the store is returned untouched. -/
theorem C5_daily_limit_reset (db : DB) (now uid : ℤ) (user : User)
    (hfind : findUser db uid = some user) :
    (adsNeedsReset user now = true ↔
      ∃ t, user.ads_limit_reached_at = some t ∧ user.ads_watched_today ≥ DAILY_MAX_ADS ∧
        now - t > RESET_INTERVAL_MS)
    ∧ (spinsNeedsReset user now = true ↔
      ∃ t, user.spins_limit_reached_at = some t ∧ user.spins_today ≥ DAILY_MAX_SPINS ∧
        now - t > RESET_INTERVAL_MS)
    ∧ ((resetDailyLimitsIfExpired db now uid).1 = true ↔
        (adsNeedsReset user now = true ∨ spinsNeedsReset user now = true))
    ∧ ((resetDailyLimitsIfExpired db now uid).1 = false →
        (resetDailyLimitsIfExpired db now uid).2 = db)
    ∧ (resetDailyLimitsIfExpired db now uid).2.temp_actions = db.temp_actions
    ∧ (resetDailyLimitsIfExpired db now uid).2.tasks_new = db.tasks_new
    ∧ (resetDailyLimitsIfExpired db now uid).2.user_tasks_new = db.user_tasks_new
    ∧ (resetDailyLimitsIfExpired db now uid).2.withdrawal_history = db.withdrawal_history
    ∧ (resetDailyLimitsIfExpired db now uid).2.commission_history = db.commission_history
    ∧ ∃ u', findUser (resetDailyLimitsIfExpired db now uid).2 uid = some u'
        ∧ (adsNeedsReset user now = true →
            u'.ads_watched_today = 0 ∧ u'.ads_limit_reached_at = none)
        ∧ (adsNeedsReset user now = false →
            u'.ads_watched_today = user.ads_watched_today ∧
            u'.ads_limit_reached_at = user.ads_limit_reached_at)
        ∧ (spinsNeedsReset user now = true →
            u'.spins_today = 0 ∧ u'.spins_limit_reached_at = none)
        ∧ (spinsNeedsReset user now = false →
            u'.spins_today = user.spins_today ∧
            u'.spins_limit_reached_at = user.spins_limit_reached_at)
        ∧ u'.balance = user.balance ∧ u'.is_banned = user.is_banned
        ∧ u'.last_activity = user.last_activity ∧ u'.ref_by = user.ref_by := by
  refine ⟨adsNeedsReset_iff user now, spinsNeedsReset_iff user now, ?_⟩
  cases hra : adsNeedsReset user now <;> cases hrs : spinsNeedsReset user now
  · have hout : resetDailyLimitsIfExpired db now uid = (false, db) := by
      simp [resetDailyLimitsIfExpired, hfind, hra, hrs]
    rw [hout]
    refine ⟨by simp [hra, hrs], fun _ => rfl, rfl, rfl, rfl, rfl, rfl, ?_⟩
    exact ⟨user, hfind, by simp [hra], fun _ => ⟨rfl, rfl⟩, by simp [hrs], fun _ => ⟨rfl, rfl⟩,
      rfl, rfl, rfl, rfl⟩
  · have hout : resetDailyLimitsIfExpired db now uid =
        (true, updateUser db uid (applyResets false true)) := by
      simp [resetDailyLimitsIfExpired, hfind, hra, hrs]
    rw [hout]
    refine ⟨by simp [hrs], by simp, rfl, rfl, rfl, rfl, rfl, ?_⟩
    refine ⟨applyResets false true user, ?_, by simp [hra], fun _ => ⟨rfl, rfl⟩,
      fun _ => ⟨rfl, rfl⟩, by simp [hrs], rfl, rfl, rfl, rfl⟩
    rw [findUser_updateUser db uid uid (applyResets false true) (fun u => rfl), if_pos rfl,
      hfind, Option.map_some']
  · have hout : resetDailyLimitsIfExpired db now uid =
        (true, updateUser db uid (applyResets true false)) := by
      simp [resetDailyLimitsIfExpired, hfind, hra, hrs]
    rw [hout]
    refine ⟨by simp [hra], by simp, rfl, rfl, rfl, rfl, rfl, ?_⟩
    refine ⟨applyResets true false user, ?_, fun _ => ⟨rfl, rfl⟩, by simp [hra],
      by simp [hrs], fun _ => ⟨rfl, rfl⟩, rfl, rfl, rfl, rfl⟩
    rw [findUser_updateUser db uid uid (applyResets true false) (fun u => rfl), if_pos rfl,
      hfind, Option.map_some']
  · have hout : resetDailyLimitsIfExpired db now uid =
        (true, updateUser db uid (applyResets true true)) := by
      simp [resetDailyLimitsIfExpired, hfind, hra, hrs]
    rw [hout]
    refine ⟨by simp [hra], by simp, rfl, rfl, rfl, rfl, rfl, ?_⟩
    refine ⟨applyResets true true user, ?_, fun _ => ⟨rfl, rfl⟩, by simp [hra],
      fun _ => ⟨rfl, rfl⟩, by simp [hrs], rfl, rfl, rfl, rfl⟩
    rw [findUser_updateUser db uid uid (applyResets true true) (fun u => rfl), if_pos rfl,
      hfind, Option.map_some']

/-- User row for the C5 witness: ads counter at the cap with an expired stamp. -/
def uC5 : User := ⟨1, some 0, false, 100, 3, some 0, none, none, none, false⟩

/-- Store contents for the C5 witness. -/
def dbC5 : DB := ⟨[uC5], [], [], [], [], []⟩

/-- Witness for C5 at a concrete store: just past the 6-hour cooldown the ads
counter is reset to zero and its stamp cleared, the untouched spins counter is
kept, and a write is issued. -/
theorem C5_daily_limit_reset_witness :
    (resetDailyLimitsIfExpired dbC5 21600001 1).1 = true ∧
    ∃ u', findUser (resetDailyLimitsIfExpired dbC5 21600001 1).2 1 = some u' ∧
      u'.ads_watched_today = 0 ∧ u'.ads_limit_reached_at = none ∧
      u'.spins_today = uC5.spins_today ∧ u'.balance = uC5.balance := by
  have h := C5_daily_limit_reset dbC5 21600001 1 uC5 rfl
  refine ⟨h.2.2.1.mpr (Or.inl (by decide)), ?_⟩
  obtain ⟨u', hu, hads, -, -, hnospins, hbal, -⟩ := h.2.2.2.2.2.2.2.2.2
  exact ⟨u', hu, (hads (by decide)).1, (hads (by decide)).2, (hnospins (by decide)).1, hbal⟩

/-- C4 — Ad-view cap behaviour: below the cap a successful ad view increments
ads_watched_today by one, credits the fixed reward, and sets
ads_limit_reached_at to the current time exactly when the new count reaches
the cap (the first crossing; later calls are rejected, so no re-stamp can
happen); at or above the cap the request fails 403 with the user row
unchanged; and once more than 6 hours have passed since the stamp, the reset
followed by the next ad view yields ads_watched_today = 1 with the reward
credited. -/
theorem C4_ad_cap (db : DB) (now uid : ℤ) (aid : Option String) (user : User) (b : ℚ)
    (hc : (validateAndUseActionId db now uid aid ActionKind.watchAd).1 = ConsumeResult.ok)
    (hfind : findUser db uid = some user)
    (hban : user.is_banned = false)
    (hrate : checkRateLimit db now uid = RateResult.pass)
    (hbal : user.balance = some b)
    (href : ∀ r, user.ref_by = some r → r ≠ uid) :
    (user.ads_watched_today < DAILY_MAX_ADS →
      (handleWatchAd db now uid aid).1 = Resp.ok
      ∧ ∃ u', findUser (handleWatchAd db now uid aid).2 uid = some u'
          ∧ u'.ads_watched_today = user.ads_watched_today + 1
          ∧ u'.balance = some (b + REWARD_PER_AD)
          ∧ u'.ads_limit_reached_at =
              (if user.ads_watched_today + 1 ≥ DAILY_MAX_ADS then some now
               else user.ads_limit_reached_at))
    ∧ (user.ads_watched_today ≥ DAILY_MAX_ADS →
        (handleWatchAd db now uid aid).1 = Resp.err ApiError.adLimitReached
        ∧ ApiError.adLimitReached.httpStatus = 403
        ∧ findUser (handleWatchAd db now uid aid).2 uid = some user
        ∧ rewardTables (handleWatchAd db now uid aid).2 = rewardTables db)
    ∧ (∀ t, user.ads_limit_reached_at = some t → user.ads_watched_today ≥ DAILY_MAX_ADS →
        now - t > RESET_INTERVAL_MS →
        ∃ u2, findUser (resetDailyLimitsIfExpired db now uid).2 uid = some u2
          ∧ u2.ads_watched_today = 0 ∧ u2.ads_limit_reached_at = none
          ∧ (handleWatchAd (resetDailyLimitsIfExpired db now uid).2 now uid aid).1 = Resp.ok
          ∧ ∃ u3, findUser
                (handleWatchAd (resetDailyLimitsIfExpired db now uid).2 now uid aid).2 uid
                = some u3
              ∧ u3.ads_watched_today = 1 ∧ u3.balance = some (b + REWARD_PER_AD)) := by
  refine ⟨?_, ?_, ?_⟩
  · intro hcap
    obtain ⟨hok, u', hu, h1, h2, h3, h4, -⟩ :=
      watchAd_success db now uid aid user b hc hfind hban hrate hcap hbal href
    exact ⟨hok, u', hu, h1, h2, h4⟩
  · intro hcapge
    have hRej : handleWatchAd db now uid aid =
        (Resp.err ApiError.adLimitReached, (validateAndUseActionId db now uid aid
          ActionKind.watchAd).2) := by
      simp [handleWatchAd, hc, findUser_validate, hfind, checkRateLimit_validate, hrate,
        hban, hcapge]
    rw [hRej]
    exact ⟨rfl, rfl, hfind, rfl⟩
  · intro t ht hcapge hexp
    have hra : adsNeedsReset user now = true :=
      (adsNeedsReset_iff user now).mpr ⟨t, ht, hcapge, hexp⟩
    have hreset : resetDailyLimitsIfExpired db now uid =
        (true, updateUser db uid (applyResets true (spinsNeedsReset user now))) := by
      simp [resetDailyLimitsIfExpired, hfind, hra]
    have hfindR : findUser (resetDailyLimitsIfExpired db now uid).2 uid =
        some (applyResets true (spinsNeedsReset user now) user) := by
      rw [hreset]
      rw [findUser_updateUser db uid uid _ (fun u => (applyResets_keeps _ _ u).1), if_pos rfl,
        hfind, Option.map_some']
    have hkeeps := applyResets_keeps true (spinsNeedsReset user now) user
    have hads := applyResets_ads (spinsNeedsReset user now) user
    have hcR : (validateAndUseActionId (resetDailyLimitsIfExpired db now uid).2 now uid aid
        ActionKind.watchAd).1 = ConsumeResult.ok := by
      rw [validate_fst_congr _ db (by rw [hreset]; rfl) now uid aid ActionKind.watchAd]
      exact hc
    have hrateR : checkRateLimit (resetDailyLimitsIfExpired db now uid).2 now uid =
        RateResult.pass := by
      rw [checkRateLimit_of_find _ now uid _ hfindR, hkeeps.2.2.2.1]
      rw [checkRateLimit_of_find db now uid user hfind] at hrate
      exact hrate
    obtain ⟨hok, u3, hu3, h1, h2, -⟩ :=
      watchAd_success (resetDailyLimitsIfExpired db now uid).2 now uid aid
        (applyResets true (spinsNeedsReset user now) user) b hcR hfindR
        (hkeeps.2.2.1.trans hban) hrateR
        (by rw [hads.1]; decide)
        (hkeeps.2.1.trans hbal)
        (fun r hr => href r (by rw [← hkeeps.2.2.2.2.1]; exact hr))
    exact ⟨applyResets true (spinsNeedsReset user now) user, hfindR, hads.1, hads.2, hok,
      u3, hu3, by rw [h1, hads.1]; decide, h2⟩

/-- User row for the C4 witness: 99 ads watched so far. -/
def uC4 : User := ⟨1, some 0, false, 99, 0, none, none, none, none, false⟩

/-- Store contents for the C4 witness: the user plus a live watchAd token. -/
def dbC4 : DB := ⟨[uC4], [⟨12, 1, "t4", ActionKind.watchAd, 10000⟩], [], [], [], []⟩

/-- Witness for C4 at a concrete store: the 100th ad view succeeds, credits
the reward, and stamps ads_limit_reached_at with the current time. -/
theorem C4_ad_cap_witness :
    (handleWatchAd dbC4 10000 1 (some "t4")).1 = Resp.ok ∧
    ∃ u', findUser (handleWatchAd dbC4 10000 1 (some "t4")).2 1 = some u' ∧
      u'.ads_watched_today = 100 ∧ u'.balance = some (0 + REWARD_PER_AD) ∧
      u'.ads_limit_reached_at = some 10000 := by
  have h := C4_ad_cap dbC4 10000 1 (some "t4") uC4 0 rfl rfl rfl rfl rfl
    (fun r hr => by rw [show uC4.ref_by = none from rfl] at hr; exact Option.noConfusion hr)
  obtain ⟨hok, u', hu, h1, h2, h3⟩ := h.1 (by decide)
  refine ⟨hok, u', hu, by rw [h1]; decide, h2, ?_⟩
  rw [h3, if_pos (by decide : uC4.ads_watched_today + 1 ≥ DAILY_MAX_ADS)]

/-- Lookup is unaffected by replacing the withdrawal history. -/
theorem findUser_with_wh (db : DB) (l : List WithdrawalRow) (x : ℤ) :
    findUser { db with withdrawal_history := l } x = findUser db x := rfl

/-- C6 — Withdrawal floor and debit: with a consumed token, an existing
unbanned user and a passing rate check, a parsed amount below the 1000 minimum
is rejected with a 400 validation error leaving the user row and the
withdrawal history untouched, while an amount at or above the minimum and
covered by the balance debits exactly that amount and appends exactly one
pending withdrawal record. -/
theorem C6_withdraw_floor (db : DB) (now uid : ℤ) (binanceId : String) (aid : Option String)
    (user : User) (b : ℚ)
    (hc : (validateAndUseActionId db now uid aid ActionKind.withdraw).1 = ConsumeResult.ok)
    (hfind : findUser db uid = some user)
    (hban : user.is_banned = false)
    (hrate : checkRateLimit db now uid = RateResult.pass)
    (hbal : user.balance = some b) :
    (∀ a : ℚ, a < 1000 →
      (∃ e, (handleWithdraw db now uid binanceId (some a) aid).1 = Resp.err e ∧
        e.httpStatus = 400)
      ∧ findUser (handleWithdraw db now uid binanceId (some a) aid).2 uid = some user
      ∧ (handleWithdraw db now uid binanceId (some a) aid).2.withdrawal_history =
          db.withdrawal_history)
    ∧ (∀ a : ℚ, 1000 ≤ a → a ≤ b →
        (handleWithdraw db now uid binanceId (some a) aid).1 = Resp.ok
        ∧ (∃ u', findUser (handleWithdraw db now uid binanceId (some a) aid).2 uid = some u'
            ∧ u'.balance = some (b - a))
        ∧ (handleWithdraw db now uid binanceId (some a) aid).2.withdrawal_history =
            db.withdrawal_history ++ [⟨uid, binanceId, some a, "pending"⟩]) := by
  constructor
  · intro a ha
    by_cases ha0 : a ≤ 0
    · have hW : handleWithdraw db now uid binanceId (some a) aid =
          (Resp.err ApiError.amountNotPositive,
            (validateAndUseActionId db now uid aid ActionKind.withdraw).2) := by
        simp [handleWithdraw, hc, findUser_validate, hfind, checkRateLimit_validate, hrate,
          hban, jsLe, ha0]
      rw [hW]
      exact ⟨⟨ApiError.amountNotPositive, rfl, rfl⟩, hfind, rfl⟩
    · have hW : handleWithdraw db now uid binanceId (some a) aid =
          (Resp.err ApiError.belowMinimum,
            (validateAndUseActionId db now uid aid ActionKind.withdraw).2) := by
        simp [handleWithdraw, hc, findUser_validate, hfind, checkRateLimit_validate, hrate,
          hban, jsLe, jsLt, ha0, ha]
      rw [hW]
      exact ⟨⟨ApiError.belowMinimum, rfl, rfl⟩, hfind, rfl⟩
  · intro a ha hab
    have h1 : jsLe (some a) (some 0) = false := by
      simp only [jsLe, decide_eq_false_iff_not]
      linarith
    have h2 : jsLt (some a) (some 1000) = false := by
      simp only [jsLt, decide_eq_false_iff_not]
      linarith
    have h3 : jsLt user.balance (some a) = false := by
      rw [hbal]
      simp only [jsLt, decide_eq_false_iff_not]
      linarith
    have hW : handleWithdraw db now uid binanceId (some a) aid =
        (Resp.ok,
          { updateUser (validateAndUseActionId db now uid aid ActionKind.withdraw).2 uid
              (withdrawPayload user now (some a)) with
            withdrawal_history :=
              (updateUser (validateAndUseActionId db now uid aid ActionKind.withdraw).2 uid
                (withdrawPayload user now (some a))).withdrawal_history ++
                [⟨uid, binanceId, some a, "pending"⟩] }) := by
      simp [handleWithdraw, hc, findUser_validate, hfind, checkRateLimit_validate, hrate,
        hban, h1, h2, h3]
    rw [hW]
    refine ⟨rfl, ⟨withdrawPayload user now (some a) user, ?_, ?_⟩, rfl⟩
    · rw [findUser_with_wh, findUser_updateUser _ uid uid (withdrawPayload user now (some a))
        (fun u => rfl), if_pos rfl, findUser_validate, hfind, Option.map_some']
    · simp [withdrawPayload, jsSub, hbal]

/-- C10 — NaN bypasses withdrawal validation: when the requested amount does
not parse to a number (NaN), all three validation comparisons are false, so
the request passes the positivity, minimum and sufficient-balance checks, the
handler answers ok, the user's balance is overwritten with NaN (no longer a
non-negative number), and a NaN-amount pending record is appended. -/
theorem C10_nan_withdraw (db : DB) (now uid : ℤ) (binanceId : String) (aid : Option String)
    (user : User)
    (hc : (validateAndUseActionId db now uid aid ActionKind.withdraw).1 = ConsumeResult.ok)
    (hfind : findUser db uid = some user)
    (hban : user.is_banned = false)
    (hrate : checkRateLimit db now uid = RateResult.pass) :
    jsLe (none : JsNum) (some 0) = false
    ∧ jsLt (none : JsNum) (some 1000) = false
    ∧ jsLt user.balance (none : JsNum) = false
    ∧ (handleWithdraw db now uid binanceId none aid).1 = Resp.ok
    ∧ (∃ u', findUser (handleWithdraw db now uid binanceId none aid).2 uid = some u'
        ∧ u'.balance = none)
    ∧ (handleWithdraw db now uid binanceId none aid).2.withdrawal_history =
        db.withdrawal_history ++ [⟨uid, binanceId, none, "pending"⟩] := by
  have h3 : jsLt user.balance none = false := by cases user.balance <;> rfl
  have hW : handleWithdraw db now uid binanceId none aid =
      (Resp.ok,
        { updateUser (validateAndUseActionId db now uid aid ActionKind.withdraw).2 uid
            (withdrawPayload user now none) with
          withdrawal_history :=
            (updateUser (validateAndUseActionId db now uid aid ActionKind.withdraw).2 uid
              (withdrawPayload user now none)).withdrawal_history ++
              [⟨uid, binanceId, none, "pending"⟩] }) := by
    simp [handleWithdraw, hc, findUser_validate, hfind, checkRateLimit_validate, hrate,
      hban, h3, show jsLe (none : JsNum) (some 0) = false from rfl,
      show jsLt (none : JsNum) (some 1000) = false from rfl]
  rw [hW]
  refine ⟨rfl, rfl, h3, rfl, ⟨withdrawPayload user now none user, ?_, ?_⟩, rfl⟩
  · rw [findUser_with_wh, findUser_updateUser _ uid uid (withdrawPayload user now none)
      (fun u => rfl), if_pos rfl, findUser_validate, hfind, Option.map_some']
  · show jsSub user.balance none = none
    cases user.balance <;> rfl

/-- User row for the withdrawal witnesses: balance 5000. -/
def uC6 : User := ⟨1, some 5000, false, 0, 0, none, none, none, none, false⟩

/-- Store contents for the withdrawal witnesses: one live withdraw token. -/
def dbC6 : DB := ⟨[uC6], [⟨13, 1, "tw", ActionKind.withdraw, 0⟩], [], [], [], []⟩

/-- Witness for C6 at a concrete store: an amount of 500 is rejected with a
400 error leaving the history empty, and an amount of 1000 debits the balance
to 4000 and appends one pending record. -/
theorem C6_withdraw_floor_witness :
    ((∃ e, (handleWithdraw dbC6 5000 1 "bid" (some 500) (some "tw")).1 = Resp.err e ∧
        e.httpStatus = 400)
      ∧ (handleWithdraw dbC6 5000 1 "bid" (some 500) (some "tw")).2.withdrawal_history =
          dbC6.withdrawal_history)
    ∧ ((handleWithdraw dbC6 5000 1 "bid" (some 1000) (some "tw")).1 = Resp.ok
      ∧ (∃ u', findUser (handleWithdraw dbC6 5000 1 "bid" (some 1000) (some "tw")).2 1 = some u'
          ∧ u'.balance = some (5000 - 1000))
      ∧ (handleWithdraw dbC6 5000 1 "bid" (some 1000) (some "tw")).2.withdrawal_history =
          dbC6.withdrawal_history ++ [⟨1, "bid", some 1000, "pending"⟩]) := by
  have h := C6_withdraw_floor dbC6 5000 1 "bid" (some "tw") uC6 5000 rfl rfl rfl rfl rfl
  obtain ⟨he, -, hh⟩ := h.1 500 (by norm_num)
  obtain ⟨hok, hu, hh2⟩ := h.2 1000 (by norm_num) (by norm_num)
  exact ⟨⟨he, hh⟩, hok, hu, hh2⟩

/-- Witness for C10 at a concrete store: a NaN amount passes every check, the
response is ok, and the stored balance becomes NaN. -/
theorem C10_nan_withdraw_witness :
    (handleWithdraw dbC6 5000 1 "bid" none (some "tw")).1 = Resp.ok
    ∧ (∃ u', findUser (handleWithdraw dbC6 5000 1 "bid" none (some "tw")).2 1 = some u'
        ∧ u'.balance = none)
    ∧ (handleWithdraw dbC6 5000 1 "bid" none (some "tw")).2.withdrawal_history =
        dbC6.withdrawal_history ++ [⟨1, "bid", none, "pending"⟩] := by
  have h := C10_nan_withdraw dbC6 5000 1 "bid" (some "tw") uC6 rfl rfl rfl rfl
  exact ⟨h.2.2.2.1, h.2.2.2.2.1, h.2.2.2.2.2⟩

/-- Lookup is unaffected by replacing the commission history. -/
theorem findUser_with_ch (db : DB) (l : List CommissionRow) (x : ℤ) :
    findUser { db with commission_history := l } x = findUser db x := rfl

/-- Credit branch of processCommission: an above-floor commission for a known
unbanned referrer credits that referrer and appends exactly one audit row. -/
theorem processCommission_credit (db : DB) (rid uid : ℤ) (s : JsNum) (ref : User)
    (hfr : findUser db rid = some ref) (hb : ref.is_banned = false)
    (hflb : jsLt (commissionAmountOf s) (some (1 / 1000000)) = false) :
    (processCommission db rid uid s).1 =
      CommissionResult.credited (jsAdd ref.balance (commissionAmountOf s))
    ∧ findUser (processCommission db rid uid s).2 rid =
        some { ref with balance := jsAdd ref.balance (commissionAmountOf s) }
    ∧ (processCommission db rid uid s).2.commission_history =
        db.commission_history ++ [⟨rid, uid, commissionAmountOf s, s⟩] := by
  unfold processCommission
  split
  · rename_i h
    rw [hflb] at h
    exact absurd h (by decide)
  · split
    · rename_i heq
      exact absurd (hfr.symm.trans heq) (by simp)
    · rename_i ref2 heq
      have hr2 : ref = ref2 := Option.some.inj (hfr.symm.trans heq)
      subst hr2
      split
      · rename_i h
        rw [hb] at h
        exact absurd h (by decide)
      · refine ⟨rfl, ?_, rfl⟩
        rw [findUser_with_ch, findUser_updateUser db rid rid
          (fun u => { u with balance := jsAdd ref.balance (commissionAmountOf s) })
          (fun u => rfl), if_pos rfl, hfr, Option.map_some']

/-- C8 — Commission computation and silent abort: the commission equals the
source reward times the fixed 5% rate (so a source of 3 yields exactly 0.15);
when the computed amount is below the negligible floor, or the referrer is
unknown or banned, the store is returned untouched (no balance change, no
audit record) and only a silently ignored abort result is produced; otherwise
the referrer's balance grows by exactly the commission and exactly one audit
record is appended; and the triggering ad-view still answers ok no matter what
the commission run did. -/
theorem C8_commission (db : DB) (rid uid : ℤ) (s : ℚ) :
    commissionAmountOf (some s) = some (s * REFERRAL_COMMISSION_RATE)
    ∧ commissionAmountOf (some 3) = some (15 / 100)
    ∧ (s * REFERRAL_COMMISSION_RATE < 1 / 1000000 →
        processCommission db rid uid (some s) = (CommissionResult.aborted, db))
    ∧ (findUser db rid = none →
        processCommission db rid uid (some s) = (CommissionResult.aborted, db))
    ∧ (∀ ref, findUser db rid = some ref → ref.is_banned = true →
        processCommission db rid uid (some s) = (CommissionResult.aborted, db))
    ∧ (∀ ref rb, findUser db rid = some ref → ref.is_banned = false → ref.balance = some rb →
        ¬ s * REFERRAL_COMMISSION_RATE < 1 / 1000000 →
        (processCommission db rid uid (some s)).1 =
          CommissionResult.credited (some (rb + s * REFERRAL_COMMISSION_RATE))
        ∧ (∃ ref2, findUser (processCommission db rid uid (some s)).2 rid = some ref2 ∧
            ref2.balance = some (rb + s * REFERRAL_COMMISSION_RATE))
        ∧ (processCommission db rid uid (some s)).2.commission_history =
            db.commission_history ++
              [⟨rid, uid, some (s * REFERRAL_COMMISSION_RATE), some s⟩])
    ∧ (∀ now : ℤ, ∀ aid : Option String, ∀ wuser : User, ∀ wb : ℚ,
        findUser db uid = some wuser → wuser.ref_by = some rid → rid ≠ uid →
        (validateAndUseActionId db now uid aid ActionKind.watchAd).1 = ConsumeResult.ok →
        wuser.is_banned = false →
        checkRateLimit db now uid = RateResult.pass →
        wuser.ads_watched_today < DAILY_MAX_ADS →
        wuser.balance = some wb →
        (handleWatchAd db now uid aid).1 = Resp.ok) := by
  refine ⟨rfl, by simp [commissionAmountOf, jsMul]; norm_num [REFERRAL_COMMISSION_RATE],
    ?_, ?_, ?_, ?_, ?_⟩
  · intro h
    have hflt : jsLt (commissionAmountOf (some s)) (some (1 / 1000000)) = true := by
      simp only [commissionAmountOf, jsMul, jsLt, decide_eq_true_eq]
      exact h
    unfold processCommission
    split
    · rfl
    · rename_i hcond
      rw [hflt] at hcond
  · intro hnone
    unfold processCommission
    split
    · rfl
    · split
      · rfl
      · rename_i ref2 heq
        rw [hnone] at heq
        exact Option.noConfusion heq
  · intro ref hfr hb
    unfold processCommission
    split
    · rfl
    · split
      · rfl
      · rename_i ref2 heq
        split
        · rfl
        · rename_i h
          rw [← Option.some.inj (hfr.symm.trans heq)] at h
          exact absurd hb h
  · intro ref rb hfr hb hrb hfl
    have hflb : jsLt (commissionAmountOf (some s)) (some (1 / 1000000)) = false := by
      simp only [commissionAmountOf, jsMul, jsLt, decide_eq_false_iff_not]
      exact hfl
    obtain ⟨h1, h2, h3⟩ := processCommission_credit db rid uid (some s) ref hfr hb hflb
    refine ⟨?_, ⟨_, h2, ?_⟩, ?_⟩
    · rw [h1]
      simp [commissionAmountOf, jsMul, jsAdd, hrb]
    · show ({ ref with balance := jsAdd ref.balance (commissionAmountOf (some s)) } : User).balance
        = some (rb + s * REFERRAL_COMMISSION_RATE)
      simp [commissionAmountOf, jsMul, jsAdd, hrb]
    · rw [h3]
      exact rfl
  · intro now aid wuser wb hfindw hrefby hne hc hban hrate hcap hbal
    exact (watchAd_success db now uid aid wuser wb hc hfindw hban hrate hcap hbal
      (fun r hr => by rw [hrefby] at hr; exact (Option.some.inj hr) ▸ hne)).1

/-- Referrer row for the C8 witness. -/
def uC8 : User := ⟨2, some 0, false, 0, 0, none, none, none, none, false⟩

/-- Store contents for the C8 witness. -/
def dbC8 : DB := ⟨[uC8], [], [], [], [], []⟩

/-- Witness for C8 at a concrete store: a source reward of 3 yields exactly
0.15 of commission, crediting the referrer, while a source whose commission
falls below the negligible floor leaves the store untouched. -/
theorem C8_commission_witness :
    commissionAmountOf (some 3) = some (15 / 100)
    ∧ (processCommission dbC8 2 1 (some 3)).1 =
        CommissionResult.credited (some (0 + 3 * REFERRAL_COMMISSION_RATE))
    ∧ processCommission dbC8 2 1 (some (1 / 100000)) = (CommissionResult.aborted, dbC8) := by
  have h3 := C8_commission dbC8 2 1 3
  have hsmall := C8_commission dbC8 2 1 (1 / 100000)
  refine ⟨h3.2.1, ?_, ?_⟩
  · exact (h3.2.2.2.2.2.1 uC8 0 rfl rfl rfl
      (by norm_num [REFERRAL_COMMISSION_RATE])).1
  · exact hsmall.2.2.1 (by norm_num [REFERRAL_COMMISSION_RATE])

/-- C9 — Rate spacing: with the user's last_activity read from the store
(absence treated as the epoch), an elapsed time under 3 seconds fails the
check with the exact remaining wait and its non-negative whole-second ceiling
(served as HTTP 429 by the handlers, which then mutate nothing), an elapsed
time of at least 3 seconds passes, the check itself writes nothing, and the
last_activity stamp is written by the successful reward-granting update. -/
theorem C9_rate_spacing (db : DB) (now uid : ℤ) (user : User)
    (hfind : findUser db uid = some user) :
    (now - user.last_activity.getD 0 < MIN_TIME_BETWEEN_ACTIONS_MS →
      checkRateLimit db now uid =
        RateResult.limited (MIN_TIME_BETWEEN_ACTIONS_MS - (now - user.last_activity.getD 0))
          (Int.ceil (((MIN_TIME_BETWEEN_ACTIONS_MS - (now - user.last_activity.getD 0) : ℤ) : ℚ)
            / 1000))
      ∧ 0 < MIN_TIME_BETWEEN_ACTIONS_MS - (now - user.last_activity.getD 0)
      ∧ 0 ≤ Int.ceil (((MIN_TIME_BETWEEN_ACTIONS_MS - (now - user.last_activity.getD 0) : ℤ) : ℚ)
            / 1000))
    ∧ (MIN_TIME_BETWEEN_ACTIONS_MS ≤ now - user.last_activity.getD 0 →
        checkRateLimit db now uid = RateResult.pass)
    ∧ (user.last_activity = none → user.last_activity.getD 0 = 0)
    ∧ (∀ rem disp : ℤ, (ApiError.rateLimited rem disp).httpStatus = 429)
    ∧ (∀ aid : Option String, ∀ rem disp : ℤ,
        (validateAndUseActionId db now uid aid ActionKind.watchAd).1 = ConsumeResult.ok →
        user.is_banned = false →
        checkRateLimit db now uid = RateResult.limited rem disp →
        (handleWatchAd db now uid aid).1 = Resp.err (ApiError.rateLimited rem disp) ∧
        rewardTables (handleWatchAd db now uid aid).2 = rewardTables db)
    ∧ (∀ aid : Option String, ∀ b : ℚ,
        (validateAndUseActionId db now uid aid ActionKind.watchAd).1 = ConsumeResult.ok →
        user.is_banned = false →
        checkRateLimit db now uid = RateResult.pass →
        user.ads_watched_today < DAILY_MAX_ADS →
        user.balance = some b →
        (∀ r, user.ref_by = some r → r ≠ uid) →
        ∃ u', findUser (handleWatchAd db now uid aid).2 uid = some u' ∧
          u'.last_activity = some now) := by
  refine ⟨?_, ?_, ?_, fun rem disp => rfl, ?_, ?_⟩
  · intro h
    rw [checkRateLimit_of_find db now uid user hfind]
    unfold rateCore
    rw [if_pos h]
    have hrem : (0 : ℤ) < MIN_TIME_BETWEEN_ACTIONS_MS - (now - user.last_activity.getD 0) := by
      omega
    refine ⟨rfl, hrem, Int.ceil_nonneg ?_⟩
    apply div_nonneg _ (by norm_num)
    exact_mod_cast hrem.le
  · intro h
    rw [checkRateLimit_of_find db now uid user hfind]
    unfold rateCore
    rw [if_neg (not_lt.mpr h)]
  · intro h
    rw [h]
    rfl
  · intro aid rem disp hc hban hlim
    have hW : handleWatchAd db now uid aid =
        (Resp.err (ApiError.rateLimited rem disp),
          (validateAndUseActionId db now uid aid ActionKind.watchAd).2) := by
      simp [handleWatchAd, hc, findUser_validate, hfind, hban, checkRateLimit_validate, hlim]
    rw [hW]
    exact ⟨rfl, rfl⟩
  · intro aid b hc hban hrate hcap hbal href
    obtain ⟨-, u', hu, -, -, hla, -⟩ :=
      watchAd_success db now uid aid user b hc hfind hban hrate hcap hbal href
    exact ⟨u', hu, hla⟩

/-- User row for the C9 witness: last activity at the epoch. -/
def uC9 : User := ⟨1, some 0, false, 0, 0, none, none, none, some 0, false⟩

/-- Store contents for the C9 witness. -/
def dbC9 : DB := ⟨[uC9], [], [], [], [], []⟩

/-- Witness for C9 at a concrete store: a request 2 seconds after the last
activity is rate-limited with 1000 ms left to wait, and a request exactly 3
seconds after passes. -/
theorem C9_rate_spacing_witness :
    (checkRateLimit dbC9 2000 1 =
        RateResult.limited (MIN_TIME_BETWEEN_ACTIONS_MS - (2000 - uC9.last_activity.getD 0))
          (Int.ceil (((MIN_TIME_BETWEEN_ACTIONS_MS - (2000 - uC9.last_activity.getD 0) : ℤ) : ℚ)
            / 1000))
      ∧ 0 < MIN_TIME_BETWEEN_ACTIONS_MS - (2000 - uC9.last_activity.getD 0)
      ∧ 0 ≤ Int.ceil (((MIN_TIME_BETWEEN_ACTIONS_MS - (2000 - uC9.last_activity.getD 0) : ℤ) : ℚ)
            / 1000))
    ∧ checkRateLimit dbC9 3000 1 = RateResult.pass := by
  have h1 := C9_rate_spacing dbC9 2000 1 uC9 rfl
  have h2 := C9_rate_spacing dbC9 3000 1 uC9 rfl
  exact ⟨h1.1 (by decide), h2.2.1 (by decide)⟩

/-- Token consumption leaves the completion table in place. -/
theorem validate_ut (db : DB) (now uid : ℤ) (aid : Option String) (k : ActionKind) :
    (validateAndUseActionId db now uid aid k).2.user_tasks_new = db.user_tasks_new := rfl

/-- Token consumption leaves every task row in place. -/
theorem findTask_validate (db : DB) (now uid : ℤ) (aid : Option String) (k : ActionKind)
    (x : ℤ) : findTask (validateAndUseActionId db now uid aid k).2 x = findTask db x := rfl

/-- processCommission leaves every task row in place. -/
theorem findTask_processCommission (db : DB) (rid uid : ℤ) (s : JsNum) (x : ℤ) :
    findTask (processCommission db rid uid s).2 x = findTask db x := by
  unfold findTask
  rw [(processCommission_keeps db rid uid s).2.1]

/-- Task lookup is unaffected by a user update. -/
theorem findTask_updateUser (db : DB) (uid : ℤ) (f : User → User) (x : ℤ) :
    findTask (updateUser db uid f) x = findTask db x := rfl

/-- Task lookup is unaffected by replacing the completion table. -/
theorem findTask_with_ut (db : DB) (l : List UserTaskRow) (x : ℤ) :
    findTask { db with user_tasks_new := l } x = findTask db x := rfl

/-- User lookup is unaffected by a task update. -/
theorem findUser_updateTask (db : DB) (tid : ℤ) (f : TaskRow → TaskRow) (x : ℤ) :
    findUser (updateTask db tid f) x = findUser db x := rfl

/-- User lookup is unaffected by replacing the completion table. -/
theorem findUser_with_ut (db : DB) (l : List UserTaskRow) (x : ℤ) :
    findUser { db with user_tasks_new := l } x = findUser db x := rfl

/-- C7 (amended) — Task capacity without deactivation: for an active task with
remaining capacity and a user with no prior completion row, completion
succeeds, inserts the completion row, increments the participant counter by
one and credits the task reward, but leaves the active flag unchanged (the
code never flags the task inactive on reaching capacity); for a task whose
counter is at or above capacity the attempt fails 403 as capacity-exhausted
with every reward table unchanged. -/
theorem C7_task_capacity_amended (db : DB) (now uid taskId : ℤ) (aid : Option String)
    (user : User) (task : TaskRow) (b : ℚ)
    (hc : (validateAndUseActionId db now uid aid ActionKind.completeNewTask).1 =
      ConsumeResult.ok)
    (hfind : findUser db uid = some user)
    (hban : user.is_banned = false)
    (hnotdone : db.user_tasks_new.find?
      (fun r => decide (r.user_id = uid ∧ r.task_id = taskId)) = none)
    (htask : findTask db taskId = some task)
    (hactive : task.is_active = true)
    (hrate : checkRateLimit db now uid = RateResult.pass)
    (hbal : user.balance = some b)
    (href : ∀ r, user.ref_by = some r → r ≠ uid) :
    (task.current_users < task.max_users →
      (handleCompleteNewTask db now uid taskId aid).1 = Resp.ok
      ∧ (handleCompleteNewTask db now uid taskId aid).2.user_tasks_new =
          db.user_tasks_new ++ [⟨uid, taskId⟩]
      ∧ findTask (handleCompleteNewTask db now uid taskId aid).2 taskId =
          some { task with current_users := task.current_users + 1 }
      ∧ ({ task with current_users := task.current_users + 1 } : TaskRow).is_active =
          task.is_active
      ∧ ∃ u', findUser (handleCompleteNewTask db now uid taskId aid).2 uid = some u'
          ∧ u'.balance = jsAdd (some b) task.task_reward)
    ∧ (task.current_users ≥ task.max_users →
        (handleCompleteNewTask db now uid taskId aid).1 = Resp.err ApiError.taskCapacityReached
        ∧ ApiError.taskCapacityReached.httpStatus = 403
        ∧ rewardTables (handleCompleteNewTask db now uid taskId aid).2 = rewardTables db) := by
  have hnd := hnotdone
  simp only [Bool.decide_and] at hnd
  constructor
  · intro hcaplt
    have hncap : ¬ task.current_users ≥ task.max_users := not_le.mpr hcaplt
    cases hrb : user.ref_by with
    | none =>
      have hW : handleCompleteNewTask db now uid taskId aid =
          (Resp.ok, updateUser
            { updateTask (validateAndUseActionId db now uid aid ActionKind.completeNewTask).2
                taskId (fun t => { t with current_users := task.current_users + 1 }) with
              user_tasks_new :=
                (updateTask (validateAndUseActionId db now uid aid
                  ActionKind.completeNewTask).2 taskId
                  (fun t => { t with current_users := task.current_users + 1 })).user_tasks_new
                ++ [⟨uid, taskId⟩] }
            uid (completeNewTaskPayload user now task.task_reward)) := by
        simp [handleCompleteNewTask, hc, findUser_validate, hfind, hban, validate_ut, hnd,
          findTask_validate, htask, hactive, hncap, checkRateLimit_validate, hrate, hrb]
      rw [hW]
      refine ⟨rfl, rfl, ?_, rfl, ?_⟩
      · rw [findTask_updateUser, findTask_with_ut, findTask_updateTask _ taskId taskId
          (fun t => { t with current_users := task.current_users + 1 }) (fun t => rfl),
          if_pos rfl, findTask_validate, htask, Option.map_some']
      · refine ⟨completeNewTaskPayload user now task.task_reward user, ?_, ?_⟩
        · rw [findUser_updateUser _ uid uid (completeNewTaskPayload user now task.task_reward)
            (fun u => rfl), if_pos rfl, findUser_with_ut, findUser_updateTask,
            findUser_validate, hfind, Option.map_some']
        · simp [completeNewTaskPayload, hbal]
    | some rid =>
      have hW : handleCompleteNewTask db now uid taskId aid =
          (Resp.ok, (processCommission (updateUser
            { updateTask (validateAndUseActionId db now uid aid ActionKind.completeNewTask).2
                taskId (fun t => { t with current_users := task.current_users + 1 }) with
              user_tasks_new :=
                (updateTask (validateAndUseActionId db now uid aid
                  ActionKind.completeNewTask).2 taskId
                  (fun t => { t with current_users := task.current_users + 1 })).user_tasks_new
                ++ [⟨uid, taskId⟩] }
            uid (completeNewTaskPayload user now task.task_reward)) rid uid
            task.task_reward).2) := by
        simp [handleCompleteNewTask, hc, findUser_validate, hfind, hban, validate_ut, hnd,
          findTask_validate, htask, hactive, hncap, checkRateLimit_validate, hrate, hrb]
      rw [hW]
      refine ⟨rfl, ?_, ?_, rfl, ?_⟩
      · rw [show ((processCommission (updateUser
            { updateTask (validateAndUseActionId db now uid aid ActionKind.completeNewTask).2
                taskId (fun t => { t with current_users := task.current_users + 1 }) with
              user_tasks_new :=
                (updateTask (validateAndUseActionId db now uid aid
                  ActionKind.completeNewTask).2 taskId
                  (fun t => { t with current_users := task.current_users + 1 })).user_tasks_new
                ++ [⟨uid, taskId⟩] }
            uid (completeNewTaskPayload user now task.task_reward)) rid uid
            task.task_reward).2).user_tasks_new = _ from
          (processCommission_keeps _ rid uid task.task_reward).2.2.1]
        rfl
      · rw [findTask_processCommission, findTask_updateUser, findTask_with_ut,
          findTask_updateTask _ taskId taskId
          (fun t => { t with current_users := task.current_users + 1 }) (fun t => rfl),
          if_pos rfl, findTask_validate, htask, Option.map_some']
      · refine ⟨completeNewTaskPayload user now task.task_reward user, ?_, ?_⟩
        · rw [findUser_processCommission _ _ _ _ _ (href rid hrb),
            findUser_updateUser _ uid uid (completeNewTaskPayload user now task.task_reward)
            (fun u => rfl), if_pos rfl, findUser_with_ut, findUser_updateTask,
            findUser_validate, hfind, Option.map_some']
        · simp [completeNewTaskPayload, hbal]
  · intro hcapge
    have hW2 : handleCompleteNewTask db now uid taskId aid =
        (Resp.err ApiError.taskCapacityReached,
          (validateAndUseActionId db now uid aid ActionKind.completeNewTask).2) := by
      simp [handleCompleteNewTask, hc, findUser_validate, hfind, hban, validate_ut, hnd,
        findTask_validate, htask, hactive, hcapge]
    rw [hW2]
    exact ⟨rfl, rfl, rfl⟩

/-- Store contents for the C7 counterexample: a fresh user, a live
completeNewTask token, and an active task with capacity 1 and no
participants. -/
def dbC7 : DB :=
  ⟨[sampleUser], [⟨14, 1, "t7", ActionKind.completeNewTask, 10000⟩],
    [⟨5, some 7, 1, 0, true⟩], [], [], []⟩

/-- Counterexample for C7 as stated: the first completion of a max_users = 1
task succeeds and brings current_users to capacity, yet the stored task keeps
is_active = true — the code never flags the task inactive, contradicting the
claim that the increment reaching capacity flags it inactive. -/
theorem C7_task_capacity_counterexample :
    (handleCompleteNewTask dbC7 10000 1 5 (some "t7")).1 = Resp.ok
    ∧ findTask (handleCompleteNewTask dbC7 10000 1 5 (some "t7")).2 5 =
        some ⟨5, some 7, 1, 1, true⟩ := by
  constructor
  · rfl
  · rfl

/-- Second user attempting the already-full task of the C7 witness. -/
def uC7b : User := ⟨2, some 0, false, 0, 0, none, none, none, none, false⟩

/-- Store contents for the C7 witness's capacity-exhausted half: the task is
full (current_users = max_users = 1) and still active. -/
def dbC7full : DB :=
  ⟨[uC7b], [⟨15, 2, "t7b", ActionKind.completeNewTask, 10000⟩],
    [⟨5, some 7, 1, 1, true⟩], [⟨1, 5⟩], [], []⟩

/-- Witness for the amended C7 at concrete stores: the first completion
succeeds, records the completion, raises current_users to 1 and keeps the
task active; a second user's attempt on the now-full task fails 403 with the
reward tables unchanged. -/
theorem C7_task_capacity_amended_witness :
    ((handleCompleteNewTask dbC7 10000 1 5 (some "t7")).1 = Resp.ok
      ∧ (handleCompleteNewTask dbC7 10000 1 5 (some "t7")).2.user_tasks_new =
          dbC7.user_tasks_new ++ [⟨1, 5⟩]
      ∧ findTask (handleCompleteNewTask dbC7 10000 1 5 (some "t7")).2 5 =
          some { (⟨5, some 7, 1, 0, true⟩ : TaskRow) with current_users := 0 + 1 })
    ∧ ((handleCompleteNewTask dbC7full 10000 2 5 (some "t7b")).1 =
          Resp.err ApiError.taskCapacityReached
      ∧ ApiError.taskCapacityReached.httpStatus = 403
      ∧ rewardTables (handleCompleteNewTask dbC7full 10000 2 5 (some "t7b")).2 =
          rewardTables dbC7full) := by
  have h1 := C7_task_capacity_amended dbC7 10000 1 5 (some "t7") sampleUser
    ⟨5, some 7, 1, 0, true⟩ 0 rfl rfl rfl rfl rfl rfl rfl rfl
    (fun r hr => by rw [show sampleUser.ref_by = none from rfl] at hr
                    exact Option.noConfusion hr)
  have h2 := C7_task_capacity_amended dbC7full 10000 2 5 (some "t7b") uC7b
    ⟨5, some 7, 1, 1, true⟩ 0 rfl rfl rfl rfl rfl rfl rfl rfl
    (fun r hr => by rw [show uC7b.ref_by = none from rfl] at hr
                    exact Option.noConfusion hr)
  obtain ⟨hok, hut, hT, -, -⟩ := h1.1 (by decide)
  obtain ⟨he, hs, htab⟩ := h2.2 (by decide)
  exact ⟨⟨hok, hut, hT⟩, he, hs, htab⟩

end ShibAds
